import Mathlib

/-!
# Verification of the conditional-test-execution rule engine
(`lib/sqlalchemy/testing/exclusions.py`)

A shallow embedding of the predicate / rule / enforcement engine:

* `Config` models the environment context (`config.db`): backend name
  (`engine.name`), driver (`engine.driver`) and the server version tuple
  (`_server_version`, `()` when absent).
* `SpecPredicate`, `Predicate` model the predicate class hierarchy
  (`BooleanPredicate`, `SpecPredicate`, `LambdaPredicate`, `NotPredicate`,
  `OrPredicate`).
* `compound` models the rule aggregate with its `skips` / `fails` / `tags`
  fields and the enforcement entry points `_do`, `_expect_failure`,
  `_expect_success` (embedded as `doTest`, `expect_failure`,
  `expect_success`).

Python exceptions are modelled with `Except String` (the string is the
exception message) for predicate evaluation, and with the `Outcome` sum for
the enforcement wrapper.  Python `set` fields are modelled as `List`
(iteration order made explicit); set-union claims are stated up to
membership.  Python tuples of ints are `List Int` with Python tuple
comparison embedded as `lexCmp`.
-/

/-- The environment context (`config` with its `config.db` engine):
backend name, driver name, and server version tuple. -/
structure Config where
  name : String
  driver : String
  version : List Int
deriving DecidableEq, Repr

/-- A Python exception value: class name and message (`str(ex)`). -/
structure Exc where
  exClass : String
  msg : String
deriving DecidableEq, Repr

instance {ε α : Type} [DecidableEq ε] [DecidableEq α] :
    DecidableEq (Except ε α) := fun x y =>
  match x, y with
  | .ok a, .ok b =>
    if h : a = b then .isTrue (by rw [h])
    else .isFalse (fun hc => h (Except.ok.inj hc))
  | .ok _, .error _ => .isFalse (fun hc => Except.noConfusion hc)
  | .error _, .ok _ => .isFalse (fun hc => Except.noConfusion hc)
  | .error e, .error f =>
    if h : e = f then .isTrue (by rw [h])
    else .isFalse (fun hc => h (Except.error.inj hc))

/-- The operator keys of `SpecPredicate._ops`.  (Callable operators,
also accepted by the source, are outside this model.) -/
inductive OpK where
  | lt | gt | eq | ne | le | ge | inOp | between
deriving DecidableEq, Repr

/-- Python tuple comparison on int tuples: lexicographic, a proper
prefix is smaller. -/
def lexCmp : List Int → List Int → Ordering
  | [], [] => .eq
  | [], _ :: _ => .lt
  | _ :: _, [] => .gt
  | a :: as1, b :: bs1 =>
    if a < b then .lt else if b < a then .gt else lexCmp as1 bs1

/-- `oper(version, self.spec)` from `SpecPredicate.__call__`, for each key
of `_ops`, at the types of this model (`version : List Int`,
`spec : Option (List Int)`).
`in` is `operator.contains(version, spec)`, i.e. `spec in version`: an
element of `version` is an int and never equals a tuple, so it is false at
these types.  `between` compares the tuple `version` against the int
`spec[0]`, a `TypeError` in Python 3.  A missing spec (`None`) compares
unequal to any tuple and is unordered. -/
def applyOp (o : OpK) (version : List Int) (spec : Option (List Int)) :
    Except String Bool :=
  match spec with
  | some s =>
    match o with
    | .lt => .ok (lexCmp version s = .lt)
    | .gt => .ok (lexCmp version s = .gt)
    | .eq => .ok (version = s)
    | .ne => .ok (version ≠ s)
    | .le => .ok (lexCmp version s ≠ .gt)
    | .ge => .ok (lexCmp version s ≠ .lt)
    | .inOp => .ok false
    | .between => .error "TypeError: tuple compared with int"
  | none =>
    match o with
    | .eq => .ok false
    | .ne => .ok true
    | .inOp => .ok false
    | _ => .error "TypeError: comparison with None"

/-- `class SpecPredicate(Predicate)`: `__init__` stores the four fields
and performs no validation. -/
structure SpecPredicate where
  db : String
  op : Option OpK := none
  spec : Option (List Int) := none
  description : Option String := none

/-- Python `db.split("+")`: split a char list at every occurrence of
`'+'` (so `"a++b"` gives three groups, the middle one empty). -/
def splitPlus : List Char → List (List Char)
  | [] => [[]]
  | c :: cs =>
    if c = '+' then [] :: splitPlus cs
    else
      match splitPlus cs with
      | [] => [[c]]
      | g :: gs => (c :: g) :: gs

/-- The body of `SpecPredicate.__call__` after the `db` string has been
split on `"+"` into `dialect` and optional `driver`:
mismatching nonempty dialect or mismatching driver give `False`; with an
operator present, `assert driver is None` fires before the operator is
applied. -/
def SpecPredicate.callWith (p : SpecPredicate) (c : Config)
    (dialect : String) (driver : Option String) : Except String Bool :=
  if dialect ≠ "" ∧ c.name ≠ dialect then .ok false
  else if driver.isSome ∧ driver ≠ some c.driver then .ok false
  else
    match p.op with
    | none => .ok true
    | some o =>
      if driver.isSome then .error "DBAPI version specs not supported yet"
      else applyOp o c.version p.spec

/-- `SpecPredicate.__call__(config)`: `None` context gives `False`;
otherwise `self.db` is split on `"+"` (`if "+" in db` the code unpacks
`dialect, driver = db.split("+")`, a `ValueError` on more than one `"+"`;
otherwise `dialect, driver = db, None`). -/
def SpecPredicate.call (p : SpecPredicate) (cfg : Option Config) :
    Except String Bool :=
  match cfg with
  | none => .ok false
  | some c =>
    match splitPlus p.db.toList with
    | [_] => p.callWith c p.db none
    | [dialect, driver] =>
      p.callWith c (String.mk dialect) (some (String.mk driver))
    | _ => .error "ValueError: too many values to unpack"

/-- The predicate class hierarchy rooted at `class Predicate`:
`BooleanPredicate` (a fixed boolean and a description, the description
defaulting to `"boolean %s" % value`), `SpecPredicate`, `LambdaPredicate`
(embedded as its final one-argument callable together with its resolved
description), `NotPredicate` and `OrPredicate`. -/
inductive Predicate where
  | boolean (value : Bool) (description : String)
  | specP (sp : SpecPredicate)
  | lambdaP (f : Option Config → Bool) (description : String)
  | notP (p : Predicate) (description : Option String)
  | orP (ps : List Predicate) (description : Option String)

mutual

/-- `__call__` of each predicate class.  `BooleanPredicate` returns its
value, `LambdaPredicate` applies its function, `NotPredicate` negates,
`OrPredicate` short-circuits over its members in order; exceptions raised
by `SpecPredicate.__call__` propagate. -/
def Predicate.eval : Predicate → Option Config → Except String Bool
  | .boolean v _, _ => .ok v
  | .specP sp, cfg => sp.call cfg
  | .lambdaP f _, cfg => .ok (f cfg)
  | .notP p _, cfg =>
    match p.eval cfg with
    | .error e => .error e
    | .ok b => .ok (!b)
  | .orP ps _, cfg => Predicate.evalList ps cfg

/-- `OrPredicate.__call__`: first member evaluating true wins. -/
def Predicate.evalList : List Predicate → Option Config → Except String Bool
  | [], _ => .ok false
  | p :: ps, cfg =>
    match p.eval cfg with
    | .error e => .error e
    | .ok true => .ok true
    | .ok false => Predicate.evalList ps cfg

end

/-- `Predicate._format_description`: renders `self.description % {...}`
with the four recognised keys.  The boolean feeding `doesnt_support` /
`does_support` is the `bool_` computed there (`self(config)`, replaced by
`not negate`, i.e. `False`, when `negate` is set).  A `%` escape other
than the four keys is kept verbatim (Python would raise on it; no caller
in the source uses any other escape).  An exception raised by
`self(config)` during formatting is out of scope of this model (rendered
as `False`). -/
def pyFormat (driver database doesnt does : List Char) :
    List Char → List Char
  | [] => []
  | '%' :: '(' :: 'd' :: 'r' :: 'i' :: 'v' :: 'e' :: 'r' :: ')' :: 's' ::
      rest => driver ++ pyFormat driver database doesnt does rest
  | '%' :: '(' :: 'd' :: 'a' :: 't' :: 'a' :: 'b' :: 'a' :: 's' :: 'e' ::
      ')' :: 's' :: rest =>
    database ++ pyFormat driver database doesnt does rest
  | '%' :: '(' :: 'd' :: 'o' :: 'e' :: 's' :: 'n' :: 't' :: '_' :: 's' ::
      'u' :: 'p' :: 'p' :: 'o' :: 'r' :: 't' :: ')' :: 's' :: rest =>
    doesnt ++ pyFormat driver database doesnt does rest
  | '%' :: '(' :: 'd' :: 'o' :: 'e' :: 's' :: '_' :: 's' :: 'u' :: 'p' ::
      'p' :: 'o' :: 'r' :: 't' :: ')' :: 's' :: rest =>
    does ++ pyFormat driver database doesnt does rest
  | c :: rest => c :: pyFormat driver database doesnt does rest

/-- `Predicate._format_description(config, negate)` given the already
computed `bool_` value `b`. -/
def formatDesc (desc : String) (cfg : Option Config) (b : Bool) : String :=
  String.mk (pyFormat
    (match cfg with | some c => c.driver.toList | none => "<no driver>".toList)
    (match cfg with | some c => c.name.toList | none => "<no database>".toList)
    (if b then "doesn\x27t support".toList else "does support".toList)
    (if b then "does support".toList else "doesn\x27t support".toList)
    desc.toList)

/-- `str(op)` for the operator keys of `_ops`. -/
def OpK.str : OpK → String
  | .lt => "<"
  | .gt => ">"
  | .eq => "=="
  | .ne => "!="
  | .le => "<="
  | .ge => ">="
  | .inOp => "in"
  | .between => "between"

/-- `str` of a Python int tuple (or `None`), as interpolated by
`SpecPredicate._as_string` via `"%s %s %s" % (db, op, spec)`. -/
def pyTupleTail : List Int → String
  | [] => ")"
  | b :: rest => ", " ++ toString b ++ pyTupleTail rest

def pyTupleRepr : Option (List Int) → String
  | none => "None"
  | some [] => "()"
  | some [a] => "(" ++ toString a ++ ",)"
  | some (a :: rest) => "(" ++ toString a ++ pyTupleTail rest

mutual

/-- `_as_string(config, negate)` of each predicate class.  Where
`_format_description` consults `self(config)`, an evaluation error is
rendered as `False` (see `formatDesc`). -/
def Predicate.asString : Predicate → Option Config → Bool → String
  | .boolean v d, cfg, negate =>
    formatDesc d cfg (if negate then false else v)
  | .specP sp, cfg, negate =>
    match sp.description with
    | some d =>
      formatDesc d cfg
        (match sp.call cfg with | .ok b => b | .error _ => false)
    | none =>
      match sp.op with
      | none => (if negate then "not " else "") ++ sp.db
      | some o =>
        (if negate then "not " else "") ++
          sp.db ++ " " ++ o.str ++ " " ++ pyTupleRepr sp.spec
  | .lambdaP f d, cfg, _negate => formatDesc d cfg (f cfg)
  | .notP p d?, cfg, negate =>
    match d? with
    | some d =>
      formatDesc d cfg
        (if negate then
          (match p.eval cfg with | .ok b => !b | .error _ => false)
         else false)
    | none => p.asString cfg (!negate)
  | .orP ps d?, cfg, negate =>
    if negate then
      match d? with
      | some d =>
        "Not " ++ formatDesc d cfg
          (match Predicate.evalList ps cfg with
            | .ok b => b | .error _ => false)
      | none =>
        String.intercalate " and " (Predicate.asStringList ps cfg true)
    else
      match d? with
      | some d =>
        formatDesc d cfg
          (match Predicate.evalList ps cfg with
            | .ok b => b | .error _ => false)
      | none =>
        String.intercalate " or " (Predicate.asStringList ps cfg false)

/-- The member descriptions of `OrPredicate._eval_str`, in member
order. -/
def Predicate.asStringList :
    List Predicate → Option Config → Bool → List String
  | [], _, _ => []
  | p :: ps, cfg, negate =>
    p.asString cfg negate :: Predicate.asStringList ps cfg negate

end

/-- The shared iteration pattern `for p in preds: if p(cfg): ...`: the
first predicate evaluating true, `none` when none does, an exception
propagating. -/
def findMatch :
    List Predicate → Option Config → Except String (Option Predicate)
  | [], _ => .ok none
  | p :: ps, cfg =>
    match p.eval cfg with
    | .error e => .error e
    | .ok true => .ok (some p)
    | .ok false => findMatch ps cfg

/-- `class compound`: the rule aggregate with its `fails`, `skips` and
`tags` fields.  The Python `set` fields for predicates are embedded as
lists (identity sets with an explicit iteration order); `tags`, a set of
strings, as a `Finset`. -/
structure compound where
  fails : List Predicate := []
  skips : List Predicate := []
  tags : Finset String := ∅

/-- `compound.add(*others)`: builds a fresh copy and unions in every
operand's three fields; no operand is mutated (the embedding is pure, and
`add` only reads `self` and `others`). -/
def compound.add (c : compound) (others : List compound) : compound :=
  others.foldl
    (fun copy o =>
      { fails := copy.fails ++ o.fails
        skips := copy.skips ++ o.skips
        tags := copy.tags ∪ o.tags })
    { fails := c.fails, skips := c.skips, tags := c.tags }

/-- `compound.as_skips()`: fail predicates are folded into the skip set
of a fresh rule. -/
def compound.as_skips (c : compound) : compound :=
  { skips := c.skips ++ c.fails, tags := c.tags }

/-- `compound.not_()`: every skip and fail predicate wrapped in
`NotPredicate`; tags pass through. -/
def compound.not_ (c : compound) : compound :=
  { fails := c.fails.map (fun p => .notP p none)
    skips := c.skips.map (fun p => .notP p none)
    tags := c.tags }

/-- `compound.enabled_for_config(config)`: true iff no predicate in
`skips.union(fails)` matches. -/
def compound.enabled_for_config (c : compound) (cfg : Option Config) :
    Except String Bool :=
  match findMatch (c.skips ++ c.fails) cfg with
  | .error e => .error e
  | .ok r => .ok r.isNone

/-- `compound.include_test(include_tags, exclude_tags)`: Python set
truthiness made explicit. -/
def compound.include_test (c : compound)
    (include_tags exclude_tags : Finset String) : Bool :=
  decide (c.tags ∩ exclude_tags = ∅) &&
    (decide (include_tags = ∅) || decide (c.tags ∩ include_tags ≠ ∅))

/-- Result of `compound._expect_failure(config, ex, name)`: a diagnostic
print for an expected failure, the re-raised original exception, or an
exception escaping predicate evaluation. -/
inductive FailResult where
  | expected (diag : String)
  | reraise (ex : Exc)
  | assertFail (msg : String)
deriving DecidableEq, Repr

/-- `compound._expect_failure`: the first matching fail predicate turns
the error into a diagnostic print
`"%s failed as expected (%s): %s " % (name, fail._as_string(config), str(ex))`
(note the trailing space of the format string); with no match the very
same exception value is re-raised. -/
def compound.expect_failure (c : compound) (cfg : Option Config) (ex : Exc)
    (name : String) : FailResult :=
  match findMatch c.fails cfg with
  | .error e => .assertFail e
  | .ok (some f) =>
    .expected (name ++ " failed as expected (" ++ f.asString cfg false ++
      "): " ++ ex.msg ++ " ")
  | .ok none => .reraise ex

/-- `compound._expect_success`: nothing to check when `fails` is empty;
otherwise the first matching fail predicate raises an `AssertionError`
whose message joins `fail._as_string(config)` over ALL of `self.fails`
(the generator in the source ranges over `self.fails`, shadowing the
matched `fail`), with `" and "`.  `.ok (some m)` is that raise, `.ok none`
a normal return, `.error` an exception escaping predicate evaluation. -/
def compound.expect_success (c : compound) (cfg : Option Config)
    (name : String) : Except String (Option String) :=
  if c.fails.isEmpty then .ok none
  else
    match findMatch c.fails cfg with
    | .error e => .error e
    | .ok (some _) =>
      .ok (some ("Unexpected success for \x27" ++ name ++ "\x27 (" ++
        String.intercalate " and "
          (Predicate.asStringList c.fails cfg false) ++ ")"))
    | .ok none => .ok none

/-- One run of the enforcement wrapper around a test body.  The body is
represented by its result; `expectedFailure` carries the diagnostic of
`_expect_failure` (the wrapper then returns `None`, not the test's
value), `raised` the re-raised original exception, `assertionError` an
`AssertionError` (unexpected success, or a predicate-evaluation
assert). -/
inductive Outcome (α : Type) where
  | skipped (reason : String)
  | value (v : α)
  | expectedFailure (diag : String)
  | raised (ex : Exc)
  | assertionError (msg : String)
deriving DecidableEq, Repr

/-- `compound._do(cfg, fn, *args, **kw)`: the skip loop runs first
(`config.skip_test("'%s' : %s" % (test name, skip._as_string(cfg)))` on
the first match, before the body is invoked — the body result is ignored
in that case); then the body's outcome is reconciled through
`_expect_failure` / `_expect_success`. -/
def compound.doTest {α : Type} (c : compound) (cfg : Option Config)
    (testName fnName : String) (body : Except Exc α) : Outcome α :=
  match findMatch c.skips cfg with
  | .error e => .assertionError e
  | .ok (some s) =>
    .skipped ("\x27" ++ testName ++ "\x27 : " ++ s.asString cfg false)
  | .ok none =>
    match body with
    | .error ex =>
      match c.expect_failure cfg ex fnName with
      | .expected d => .expectedFailure d
      | .reraise e => .raised e
      | .assertFail m => .assertionError m
    | .ok v =>
      match c.expect_success cfg fnName with
      | .error m => .assertionError m
      | .ok (some m) => .assertionError m
      | .ok none => .value v

/-- The description merge performed by `Predicate.as_predicate` on an
existing `Predicate` instance:
`if description and predicate.description is None` (the empty string is
falsy).  `BooleanPredicate` and `LambdaPredicate` descriptions are never
`None` (they default), so only `SpecPredicate`, `NotPredicate` and
`OrPredicate` can receive one. -/
def Predicate.withDesc (p : Predicate) (desc : Option String) : Predicate :=
  match desc with
  | none => p
  | some d =>
    if d = "" then p
    else
      match p with
      | .specP sp =>
        match sp.description with
        | none => .specP { sp with description := some d }
        | some _ => p
      | .notP q none => .notP q (some d)
      | .orP ps none => .orP ps (some d)
      | _ => p

/-- Python `s.split(sep)` for a one-character separator. -/
def pySplit (sep : Char) : List Char → List (List Char)
  | [] => [[]]
  | c :: cs =>
    if c = sep then [] :: pySplit sep cs
    else
      match pySplit sep cs with
      | [] => [[c]]
      | g :: gs => (c :: g) :: gs

/-- The character class `[\+\w]` of the predicate-string grammar. -/
def isWordChar (c : Char) : Bool := c = '+' || c = '_' || c.isAlphanum

/-- The operator alternation `(>=|==|!=|<=|<|>)` in the order the regex
tries it. -/
def opTokens : List (String × OpK) :=
  [(">=", .ge), ("==", .eq), ("!=", .ne), ("<=", .le), ("<", .lt),
   (">", .gt)]

/-- Remainder of `cs` after the literal prefix `pat`, when it is one. -/
def stripLit : List Char → List Char → Option (List Char)
  | [], rest => some rest
  | _, [] => none
  | p :: ps, c :: cs => if c = p then stripLit ps cs else none

/-- The optional group `(?:(>=|==|!=|<=|<|>)\s*([\d\.]+))?`: an operator
alternative only succeeds when a nonempty `[\d\.]+` run follows it (the
regex backtracks to the next alternative, and finally leaves the group
unmatched, otherwise). -/
def tryOps : List (String × OpK) → List Char → Option (OpK × List Char)
  | [], _ => none
  | (t, k) :: more, rest =>
    match stripLit t.toList rest with
    | some after =>
      let digits :=
        (after.dropWhile (fun c => c.isWhitespace)).takeWhile
          (fun c => c.isDigit || c = '.')
      if digits.isEmpty then tryOps more rest else some (k, digits)
    | none => tryOps more rest

def charsToNat (cs : List Char) : Nat :=
  cs.foldl (fun n c => 10 * n + (c.toNat - 48)) 0

/-- `tuple(int(d) for d in tokens.group(3).split("."))`: an empty piece
(consecutive or leading/trailing dots) raises `ValueError` in `int`. -/
def parseVersion (digits : List Char) : Option (List Int) :=
  let pieces := pySplit '.' digits
  if pieces.any (·.isEmpty) then none
  else some (pieces.map (fun p => (charsToNat p : Int)))

/-- `Predicate.as_predicate` on a string: the anchored match of
`([\+\w]+)\s*(?:(>=|==|!=|<=|<|>)\s*([\d\.]+))?`, feeding
`SpecPredicate(db, op, spec, description=description)`; no leading word
character raises `ValueError("Couldn't locate DB name in predicate: %r")`. -/
def parseSpecStr (s : String) (desc : Option String) :
    Except String Predicate :=
  let cs := s.toList
  let dbChars := cs.takeWhile isWordChar
  if dbChars.isEmpty then
    .error ("Couldn\x27t locate DB name in predicate: \x27" ++ s ++ "\x27")
  else
    let rest := (cs.drop dbChars.length).dropWhile (fun c => c.isWhitespace)
    match tryOps opTokens rest with
    | none => .ok (.specP ⟨String.mk dbChars, none, none, desc⟩)
    | some (k, digits) =>
      match parseVersion digits with
      | none => .error "ValueError: invalid literal for int()"
      | some ver =>
        .ok (.specP ⟨String.mk dbChars, some k, some ver, desc⟩)

/-- The descriptor forms dispatched by `Predicate.as_predicate`: an
existing `Predicate` instance, a list/set of descriptors, a tuple
(`SpecPredicate(*predicate)`), or a string.  The `compound` and bare
callable forms of the source are outside this model. -/
inductive Descriptor where
  | pred (p : Predicate)
  | listD (ds : List Descriptor)
  | tup (db : String) (op : Option OpK := none)
      (spec : Option (List Int) := none)
  | strD (s : String)

mutual

/-- `Predicate.as_predicate(predicate, description)`. -/
def Descriptor.asPredicate :
    Descriptor → Option String → Except String Predicate
  | .pred p, desc => .ok (p.withDesc desc)
  | .listD ds, desc =>
    match Descriptor.asPredicateList ds none with
    | .error e => .error e
    | .ok ps => .ok (.orP ps desc)
  | .tup db op spec, _ => .ok (.specP ⟨db, op, spec, none⟩)
  | .strD s, desc => parseSpecStr s desc

/-- A list comprehension `[as_predicate(d, desc) for d in ds]`: the first
exception propagates. -/
def Descriptor.asPredicateList :
    List Descriptor → Option String → Except String (List Predicate)
  | [], _ => .ok []
  | d :: ds, desc =>
    match d.asPredicate desc with
    | .error e => .error e
    | .ok p =>
      match Descriptor.asPredicateList ds desc with
      | .error e => .error e
      | .ok ps => .ok (p :: ps)

end

/-- `skip_if(predicate, reason)` on a predicate instance: a fresh rule
whose `skips` holds the normalized predicate. -/
def skip_if (p : Predicate) (reason : Option String := none) : compound :=
  { skips := [p.withDesc reason] }

/-- `fails_if(predicate, reason)`. -/
def fails_if (p : Predicate) (reason : Option String := none) : compound :=
  { fails := [p.withDesc reason] }

/-- `only_if(predicate, reason)`: skip unless the predicate holds. -/
def only_if (p : Predicate) (reason : Option String := none) : compound :=
  skip_if (.notP p none) reason

/-- `succeeds_if(predicate, reason)`. -/
def succeeds_if (p : Predicate) (reason : Option String := none) :
    compound :=
  fails_if (.notP p none) reason

/-- `tags(tagnames)`. -/
def tags (tagnames : List String) : compound :=
  { tags := tagnames.toFinset }

/-- `requires_tag(tagname)`. -/
def requires_tag (tagname : String) : compound := tags [tagname]

/-- `db_spec(*dbs)`: `OrPredicate([as_predicate(db) for db in dbs])` —
note: no emptiness check, `db_spec()` builds an empty disjunction. -/
def db_spec (dbs : List Descriptor) : Except String Predicate :=
  match Descriptor.asPredicateList dbs none with
  | .error e => .error e
  | .ok ps => .ok (.orP ps none)

/-- `only_on(dbs, reason)`:
`only_if(OrPredicate([as_predicate(db, reason) for db in to_list(dbs)]))`
— note: no emptiness check either. -/
def only_on (dbs : List Descriptor) (reason : Option String := none) :
    Except String compound :=
  match Descriptor.asPredicateList dbs reason with
  | .error e => .error e
  | .ok ps => .ok (only_if (.orP ps none) none)

/-- `against(config, *queries)`: `assert queries, "no queries sent!"`,
then the ad hoc evaluation of the disjunction of the queries. -/
def against (cfg : Option Config) (queries : List Descriptor) :
    Except String Bool :=
  if queries.isEmpty then .error "no queries sent!"
  else
    match Descriptor.asPredicateList queries none with
    | .error e => .error e
    | .ok ps => Predicate.eval (.orP ps none) cfg

/-! ## Helper lemmas -/

theorem lexCmp_eq_iff (v s : List Int) : lexCmp v s = .eq ↔ v = s := by
  induction v generalizing s with
  | nil => cases s <;> simp [lexCmp]
  | cons a v ih =>
    cases s with
    | nil => simp [lexCmp]
    | cons b s =>
      by_cases hab : a < b
      · simp only [lexCmp, if_pos hab]
        constructor
        · intro h; cases h
        · intro h
          exact absurd (List.cons.inj h).1 (by omega)
      · by_cases hba : b < a
        · simp only [lexCmp, if_neg hab, if_pos hba]
          constructor
          · intro h; cases h
          · intro h
            exact absurd (List.cons.inj h).1 (by omega)
        · have hEq : a = b := by omega
          subst hEq
          simp [lexCmp, ih]

theorem lexCmp_lt_iff (v s : List Int) :
    lexCmp v s = .lt ↔ List.Lex (· < ·) v s := by
  induction v generalizing s with
  | nil =>
    cases s with
    | nil =>
      exact iff_of_false (by decide) (fun h => by cases h)
    | cons b s =>
      exact iff_of_true rfl List.Lex.nil
  | cons a v ih =>
    cases s with
    | nil =>
      exact iff_of_false (by simp [lexCmp]) (List.Lex.not_nil_right _ _)
    | cons b s =>
      by_cases hab : a < b
      · exact iff_of_true (by simp [lexCmp, hab]) (List.Lex.rel hab)
      · by_cases hba : b < a
        · refine iff_of_false (by simp [lexCmp, hab, hba]) ?_
          intro h
          cases h with
          | cons h => omega
          | rel h => omega
        · have hEq : a = b := by omega
          subst hEq
          have hc : lexCmp (a :: v) (a :: s) = lexCmp v s := by
            simp [lexCmp]
          rw [hc, ih]
          constructor
          · exact List.Lex.cons
          · intro h
            cases h with
            | cons h => exact h
            | rel h => omega

theorem lexCmp_gt_iff (v s : List Int) :
    lexCmp v s = .gt ↔ List.Lex (· < ·) s v := by
  induction v generalizing s with
  | nil =>
    cases s with
    | nil =>
      exact iff_of_false (by decide) (fun h => by cases h)
    | cons b s =>
      exact iff_of_false (by simp [lexCmp]) (List.Lex.not_nil_right _ _)
  | cons a v ih =>
    cases s with
    | nil =>
      exact iff_of_true rfl List.Lex.nil
    | cons b s =>
      by_cases hab : a < b
      · refine iff_of_false (by simp [lexCmp, hab]) ?_
        intro h
        cases h with
        | cons h => omega
        | rel h => omega
      · by_cases hba : b < a
        · exact iff_of_true (by simp [lexCmp, hab, hba]) (List.Lex.rel hba)
        · have hEq : a = b := by omega
          subst hEq
          have hc : lexCmp (a :: v) (a :: s) = lexCmp v s := by
            simp [lexCmp]
          rw [hc, ih]
          constructor
          · exact List.Lex.cons
          · intro h
            cases h with
            | cons h => exact h
            | rel h => omega

/-- A `SpecPredicate` whose `db` has no `"+"` returns false on a context
with a different backend name (provided `db` is a nonempty identifier:
an empty `dialect` is falsy and skips the name check in the source). -/
theorem call_name_mismatch (sp : SpecPredicate) (c : Config)
    (d : List Char) (h : splitPlus sp.db.toList = [d]) (hne : sp.db ≠ "")
    (hname : c.name ≠ sp.db) : sp.call (some c) = .ok false := by
  simp only [SpecPredicate.call, h]
  simp [SpecPredicate.callWith, hne, hname]

/-- A `SpecPredicate` whose `db` carries a driver sub-identifier returns
false on a context with a different driver, whatever the backend name. -/
theorem call_driver_mismatch (sp : SpecPredicate) (c : Config)
    (di dr : List Char) (h : splitPlus sp.db.toList = [di, dr])
    (hdr : c.driver ≠ String.mk dr) : sp.call (some c) = .ok false := by
  simp only [SpecPredicate.call, h]
  by_cases hd : String.mk di ≠ "" ∧ c.name ≠ String.mk di
  · simp [SpecPredicate.callWith, hd]
  · simp only [SpecPredicate.callWith, if_neg hd]
    have : (some (String.mk dr) : Option String) ≠ some c.driver := by
      simp [hdr.symm]
    simp [this]

/-- A `SpecPredicate` with a matching backend name, no driver
sub-identifier and an operator applies the operator to
`(context version, spec)`. -/
theorem call_op_apply (sp : SpecPredicate) (c : Config) (o : OpK)
    (d : List Char) (h : splitPlus sp.db.toList = [d])
    (hname : c.name = sp.db) (hop : sp.op = some o) :
    sp.call (some c) = applyOp o c.version sp.spec := by
  have h0 : sp.call (some c) = sp.callWith c sp.db none := by
    simp only [SpecPredicate.call, h]
  rw [h0]
  simp [SpecPredicate.callWith, hname, hop]

/-- The driver-and-operator assertion of `SpecPredicate.__call__` fires
exactly when the context passes both the name and the driver filters. -/
theorem call_driver_op_assert (sp : SpecPredicate) (c : Config)
    (di dr : List Char) (o : OpK) (h : splitPlus sp.db.toList = [di, dr])
    (hop : sp.op = some o)
    (hname : String.mk di = "" ∨ c.name = String.mk di)
    (hdr : c.driver = String.mk dr) :
    sp.call (some c) = .error "DBAPI version specs not supported yet" := by
  have h0 : sp.call (some c) =
      sp.callWith c (String.mk di) (some (String.mk dr)) := by
    simp only [SpecPredicate.call, h]
  rw [h0]
  unfold SpecPredicate.callWith
  rw [if_neg (by rcases hname with h' | h' <;> simp [h'])]
  rw [if_neg (by simp [hdr])]
  rw [hop]
  simp

/-- A list of `SpecPredicate`s evaluates to no match against an absent
context. -/
theorem findMatch_specs_none (l : List Predicate)
    (h : ∀ p ∈ l, ∃ sp, p = Predicate.specP sp) :
    findMatch l none = .ok none := by
  induction l with
  | nil => rfl
  | cons p ps ih =>
    obtain ⟨sp, hsp⟩ := h p (by simp)
    subst hsp
    simp only [findMatch, Predicate.eval, SpecPredicate.call]
    exact ih (fun q hq => h q (by simp [hq]))

/-! ## Claims -/

/-- C1, counterexample: combining a sub-identifier (`"pg+psycopg2"`) with
a comparison operator does NOT raise at rule-construction time: the
`SpecPredicate` is built (its `__init__` stores the fields unvalidated)
and evaluates to `False` against an absent context and against a
non-matching context — evaluation against a context occurs without any
prior failure, contradicting the claim that the combination raises before
any evaluation. -/
theorem C1_counterexample :
    ((SpecPredicate.mk "pg+psycopg2" (some .ge) (some [9, 0]) none).call
        none = .ok false) ∧
    ((SpecPredicate.mk "pg+psycopg2" (some .ge) (some [9, 0]) none).call
        (some ⟨"mysql", "psycopg2", [9, 1]⟩) = .ok false) :=
  ⟨by decide, by decide⟩

/-- C1 (amended): building a `SpecPredicate` that combines a
sub-identifier constraint with an operator never fails; the invalid
combination is signalled at evaluation time instead, by the
`assert driver is None` inside `__call__`, and only when the context
passes both the backend-name and the driver filter; against an absent
context, or a context with a different driver, evaluation returns
`False` without raising. -/
theorem C1_assert_deferred :
    (∀ (db : String) (o : Option OpK) (s : Option (List Int))
       (d : Option String),
       (SpecPredicate.mk db o s d).call none = .ok false) ∧
    (∀ (sp : SpecPredicate) (c : Config) (di dr : List Char) (o : OpK),
       splitPlus sp.db.toList = [di, dr] → sp.op = some o →
       (String.mk di = "" ∨ c.name = String.mk di) →
       c.driver = String.mk dr →
       sp.call (some c) = .error "DBAPI version specs not supported yet") ∧
    (∀ (sp : SpecPredicate) (c : Config) (di dr : List Char),
       splitPlus sp.db.toList = [di, dr] → c.driver ≠ String.mk dr →
       sp.call (some c) = .ok false) :=
  ⟨fun _ _ _ _ => rfl,
   fun sp c di dr o h hop hname hdr =>
     call_driver_op_assert sp c di dr o h hop hname hdr,
   fun sp c di dr h hdr => call_driver_mismatch sp c di dr h hdr⟩

theorem C1_assert_deferred_witness :
    ((SpecPredicate.mk "pg+psycopg2" (some .ge) (some [9, 0]) none).call
       none = .ok false) ∧
    ((SpecPredicate.mk "pg+psycopg2" (some .ge) (some [9, 0]) none).call
       (some ⟨"pg", "psycopg2", [9, 1]⟩) =
     .error "DBAPI version specs not supported yet") ∧
    ((SpecPredicate.mk "pg+psycopg2" (some .ge) (some [9, 0]) none).call
       (some ⟨"pg", "other", [9, 1]⟩) = .ok false) :=
  ⟨C1_assert_deferred.1 _ _ _ _,
   C1_assert_deferred.2.1 _ _ _ _ _ rfl rfl (Or.inr (by decide)) (by decide),
   C1_assert_deferred.2.2 _ _ _ _ rfl (by decide)⟩

/-- C2, counterexample: a rule with fail predicates described `"A"`
(matching) and `"B"` (not matching — its evaluation is `False`): on a
normal return the raised `AssertionError` names BOTH descriptions,
`"(A and B)"`, not only the matching one as the claim states. -/
theorem C2_counterexample :
    ((compound.mk [Predicate.boolean true "A", Predicate.boolean false "B"]
        [] ∅).doTest (α := Nat) none "t" "t" (.ok 0) =
      .assertionError "Unexpected success for \x27t\x27 (A and B)") ∧
    (Predicate.boolean false "B").eval none = .ok false :=
  ⟨by decide, by decide⟩

/-- C2 (amended): when the wrapped test returns normally and some fail
predicate matches, the wrapper raises an unexpected-success
`AssertionError` whose message joins the descriptions of ALL fail
predicates of the rule (the generator in `_expect_success` ranges over
`self.fails`), not only the matching ones; when no fail predicate
matches, the test's return value is passed through unchanged. -/
theorem C2_expect_success_all_descriptions :
    ∀ {α : Type} (c : compound) (cfg : Option Config) (tn fn : String)
      (v : α) (f : Predicate),
      findMatch c.skips cfg = .ok none →
      ((findMatch c.fails cfg = .ok (some f) →
        c.doTest cfg tn fn (.ok v) =
          .assertionError ("Unexpected success for \x27" ++ fn ++
            "\x27 (" ++ String.intercalate " and "
              (Predicate.asStringList c.fails cfg false) ++ ")")) ∧
       (findMatch c.fails cfg = .ok none →
        c.doTest cfg tn fn (.ok v) = .value v)) := by
  intro α c cfg tn fn v f h1
  constructor
  · intro h2
    have hie : c.fails.isEmpty = false := by
      cases hc : c.fails with
      | nil => rw [hc] at h2; simp [findMatch] at h2
      | cons _ _ => rfl
    simp [compound.doTest, h1, compound.expect_success, hie, h2]
  · intro h2
    cases hc : c.fails with
    | nil => simp [compound.doTest, h1, compound.expect_success, hc]
    | cons p ps =>
      have hie : c.fails.isEmpty = false := by rw [hc]; rfl
      simp [compound.doTest, h1, compound.expect_success, hie, h2]

theorem C2_expect_success_all_descriptions_witness :
    ((compound.mk [Predicate.boolean true "A", Predicate.boolean false "B"]
        [] ∅).doTest (α := Nat) none "ta" "ta" (.ok 0) =
      .assertionError "Unexpected success for \x27ta\x27 (A and B)") ∧
    ((compound.mk [Predicate.boolean false "B"] [] ∅).doTest (α := Nat)
        none "tb" "tb" (.ok 5) = .value 5) :=
  ⟨((C2_expect_success_all_descriptions
      (compound.mk [Predicate.boolean true "A", Predicate.boolean false "B"]
        [] ∅) none "ta" "ta" 0 (.boolean true "A") rfl).1 rfl).trans
      (by decide),
   (C2_expect_success_all_descriptions
      (compound.mk [Predicate.boolean false "B"] [] ∅) none "tb" "tb" 5
      (.boolean true "A") rfl).2 rfl⟩

/-- C3, counterexample: with `include_tags = {"fast"}` and empty
`exclude_tags`, a test with the EMPTY tag set is excluded — so the claim
that only a `{"slow"}`-tagged test is excluded (and in particular that an
untagged test is included) is false. -/
theorem C3_counterexample :
    (compound.mk [] [] ∅).include_test {"fast"} ∅ = false := by decide

/-- C3 (amended): with `include_tags = {"fast"}` and empty
`exclude_tags`, a test is included iff its tags intersect `{"fast"}`; so
a `{"slow"}`-tagged test and an untagged test are both excluded, and a
`{"fast"}`-tagged test is included. -/
theorem C3_include_fast :
    (∀ c : compound,
      c.include_test {"fast"} ∅ = decide (c.tags ∩ {"fast"} ≠ ∅)) ∧
    (compound.mk [] [] {"slow"}).include_test {"fast"} ∅ = false ∧
    (compound.mk [] [] {"fast"}).include_test {"fast"} ∅ = true := by
  refine ⟨fun c => ?_, by decide, by decide⟩
  simp [compound.include_test]

/-- C4: when the wrapped test raises and no fail predicate matches the
context, the wrapper re-raises the same exception value unchanged
(`util.raise_(ex, ...)` on the `for`-`else` path of `_expect_failure`). -/
theorem C4_unexpected_failure_reraised :
    ∀ {α : Type} (c : compound) (cfg : Option Config) (ex : Exc)
      (tn fn : String),
      findMatch c.skips cfg = .ok none →
      findMatch c.fails cfg = .ok none →
      c.doTest (α := α) cfg tn fn (.error ex) = .raised ex := by
  intro α c cfg ex tn fn h1 h2
  simp [compound.doTest, h1, compound.expect_failure, h2]

theorem C4_unexpected_failure_reraised_witness :
    (compound.mk [Predicate.specP ⟨"sqlite", none, none, none⟩] []
        ∅).doTest (α := Nat) (some ⟨"postgres", "psycopg2", [12, 0]⟩)
        "t" "t" (.error ⟨"ValueError", "x"⟩) =
      .raised ⟨"ValueError", "x"⟩ :=
  C4_unexpected_failure_reraised _ _ _ _ _ rfl rfl

/-- C5: a test is included in the run iff its tags do not intersect
`exclude_tags` and (`include_tags` is empty or its tags intersect
`include_tags`); in particular `include_in_run({}, {"slow"})` excludes a
`{"slow"}`-tagged test and includes an untagged one. -/
theorem C5_include_in_run :
    (∀ (c : compound) (incl excl : Finset String),
      c.include_test incl excl = true ↔
        (c.tags ∩ excl = ∅ ∧ (incl = ∅ ∨ c.tags ∩ incl ≠ ∅))) ∧
    (compound.mk [] [] {"slow"}).include_test ∅ {"slow"} = false ∧
    (compound.mk [] [] ∅).include_test ∅ {"slow"} = true := by
  refine ⟨fun c incl excl => ?_, by decide, by decide⟩
  simp [compound.include_test]

/-- C6: `add` composes rules by set union on all three fields (stated up
to membership for the predicate lists, which embed Python sets), mutates
neither operand (the embedding is pure: `add` only reads its arguments
and builds a fresh `compound`), and is commutative and associative up to
those sets. -/
theorem C6_add_set_union :
    ∀ a b c : compound,
      ((∀ p, p ∈ (a.add [b]).skips ↔ p ∈ a.skips ∨ p ∈ b.skips) ∧
       (∀ p, p ∈ (a.add [b]).fails ↔ p ∈ a.fails ∨ p ∈ b.fails) ∧
       (a.add [b]).tags = a.tags ∪ b.tags) ∧
      ((∀ p, p ∈ (a.add [b]).skips ↔ p ∈ (b.add [a]).skips) ∧
       (∀ p, p ∈ (a.add [b]).fails ↔ p ∈ (b.add [a]).fails) ∧
       (a.add [b]).tags = (b.add [a]).tags) ∧
      ((∀ p, p ∈ ((a.add [b]).add [c]).skips ↔
         p ∈ (a.add [b.add [c]]).skips) ∧
       (∀ p, p ∈ ((a.add [b]).add [c]).fails ↔
         p ∈ (a.add [b.add [c]]).fails) ∧
       ((a.add [b]).add [c]).tags = (a.add [b.add [c]]).tags) := by
  intro a b c
  refine ⟨⟨fun p => ?_, fun p => ?_, rfl⟩,
    ⟨fun p => ?_, fun p => ?_, Finset.union_comm _ _⟩,
    ⟨fun p => ?_, fun p => ?_, Finset.union_assoc _ _ _⟩⟩ <;>
    simp [compound.add, List.mem_append, or_comm, or_assoc]

/-- C7: `SpecPredicate` evaluation returns false on a backend-name
mismatch (for a plain nonempty backend identifier) and on a
sub-identifier mismatch; with a matching backend and an operator it
applies the operator to `(context version, spec version)`, where the
ordering operators are Python tuple comparison, i.e. lexicographic order
(`List.Lex (· < ·)`); `("pg", ">=", (9,0))` matches backend `"pg"` at
version `(9,1,0)` and never matches backend `"mysql"`. -/
theorem C7_version_spec :
    (∀ (sp : SpecPredicate) (c : Config) (d : List Char),
       splitPlus sp.db.toList = [d] → sp.db ≠ "" → c.name ≠ sp.db →
       sp.call (some c) = .ok false) ∧
    (∀ (sp : SpecPredicate) (c : Config) (di dr : List Char),
       splitPlus sp.db.toList = [di, dr] → c.driver ≠ String.mk dr →
       sp.call (some c) = .ok false) ∧
    (∀ (sp : SpecPredicate) (c : Config) (o : OpK) (d : List Char),
       splitPlus sp.db.toList = [d] → c.name = sp.db → sp.op = some o →
       sp.call (some c) = applyOp o c.version sp.spec) ∧
    (∀ v s : List Int,
       (applyOp .lt v (some s) = .ok true ↔ List.Lex (· < ·) v s) ∧
       (applyOp .gt v (some s) = .ok true ↔ List.Lex (· < ·) s v) ∧
       (applyOp .le v (some s) = .ok true ↔ ¬List.Lex (· < ·) s v) ∧
       (applyOp .ge v (some s) = .ok true ↔ ¬List.Lex (· < ·) v s) ∧
       (applyOp .eq v (some s) = .ok true ↔ v = s) ∧
       (applyOp .ne v (some s) = .ok true ↔ v ≠ s)) ∧
    ((SpecPredicate.mk "pg" (some .ge) (some [9, 0]) none).call
       (some ⟨"pg", "psycopg2", [9, 1, 0]⟩) = .ok true) ∧
    (∀ (dr : String) (ver : List Int),
       (SpecPredicate.mk "pg" (some .ge) (some [9, 0]) none).call
         (some ⟨"mysql", dr, ver⟩) = .ok false) := by
  refine ⟨call_name_mismatch, call_driver_mismatch,
    fun sp c o d h hname hop => call_op_apply sp c o d h hname hop,
    fun v s => ?_, by decide,
    fun dr ver =>
      call_name_mismatch (SpecPredicate.mk "pg" (some .ge) (some [9, 0]) none)
        ⟨"mysql", dr, ver⟩ "pg".toList rfl (by decide)
        (by show ("mysql" : String) ≠ "pg"; decide)⟩
  refine ⟨?_, ?_, ?_, ?_, ?_, ?_⟩ <;> simp [applyOp]
  · exact lexCmp_lt_iff v s
  · exact lexCmp_gt_iff v s
  · exact not_congr (lexCmp_gt_iff v s)
  · exact not_congr (lexCmp_lt_iff v s)

theorem C7_version_spec_witness :
    ((SpecPredicate.mk "sqlite" none none none).call
       (some ⟨"postgres", "d", []⟩) = .ok false) ∧
    ((SpecPredicate.mk "pg+psycopg2" none none none).call
       (some ⟨"pg", "other", []⟩) = .ok false) ∧
    ((SpecPredicate.mk "pg" (some .ge) (some [9, 0]) none).call
       (some ⟨"pg", "d", [9, 1, 0]⟩) = applyOp .ge [9, 1, 0] (some [9, 0])) ∧
    (applyOp .ge [9, 1, 0] (some [9, 0]) = .ok true ↔
      ¬List.Lex (· < ·) ([9, 1, 0] : List Int) [9, 0]) :=
  ⟨C7_version_spec.1 _ _ _ rfl (by decide) (by decide),
   C7_version_spec.2.1 _ _ _ _ rfl (by decide),
   C7_version_spec.2.2.1 _ ⟨"pg", "d", [9, 1, 0]⟩ .ge _ rfl rfl rfl,
   (C7_version_spec.2.2.2.1 [9, 1, 0] [9, 0]).2.2.2.1⟩

/-- C8: skip predicates are checked before the test body: if one matches
(`findMatch` finds `s`), the outcome is `Skipped` with the message built
from the matching predicate's description, for EVERY body — the wrapped
test's result never influences the outcome, modelling that the body is
not invoked. -/
theorem C8_skip_precheck :
    ∀ {α : Type} (c : compound) (cfg : Option Config) (tn fn : String)
      (s : Predicate),
      findMatch c.skips cfg = .ok (some s) →
      ∀ body : Except Exc α,
        c.doTest cfg tn fn body =
          .skipped ("\x27" ++ tn ++ "\x27 : " ++ s.asString cfg false) := by
  intro α c cfg tn fn s h body
  simp [compound.doTest, h]

theorem C8_skip_precheck_witness :
    ((compound.mk [] [Predicate.boolean true "always skipped"] ∅).doTest
        (α := Nat) none "test_a" "test_a" (.ok 7) =
      .skipped "\x27test_a\x27 : always skipped") ∧
    ((compound.mk [] [Predicate.boolean true "always skipped"] ∅).doTest
        (α := Nat) none "test_a" "test_a"
        (.error ⟨"ValueError", "x"⟩) =
      .skipped "\x27test_a\x27 : always skipped") :=
  ⟨(C8_skip_precheck
      (compound.mk [] [Predicate.boolean true "always skipped"] ∅) none
      "test_a" "test_a" (Predicate.boolean true "always skipped") rfl
      (.ok 7)).trans (by decide),
   (C8_skip_precheck
      (compound.mk [] [Predicate.boolean true "always skipped"] ∅) none
      "test_a" "test_a" (Predicate.boolean true "always skipped") rfl
      (.error ⟨"ValueError", "x"⟩)).trans (by decide)⟩

/-- C9, counterexample: `db_spec` does NOT reject an empty descriptor
list — `db_spec()` succeeds and builds the empty disjunction
`OrPredicate([])` instead of failing at construction time. -/
theorem C9_counterexample : db_spec [] = .ok (.orP [] none) := rfl

/-- C9 (amended): only `against` rejects an empty descriptor list
(`assert queries, "no queries sent!"`, raised before any evaluation);
`db_spec` and `only_on` accept empty lists without failure — `db_spec`
yields an empty disjunction that matches no context, and `only_on` a
rule whose single skip predicate (the negated empty disjunction) matches
every context, i.e. an always-skip rule. -/
theorem C9_empty_descriptors :
    (∀ cfg, against cfg [] = .error "no queries sent!") ∧
    db_spec [] = .ok (.orP [] none) ∧
    only_on [] none = .ok (skip_if (.notP (.orP [] none) none) none) ∧
    (∀ cfg, Predicate.eval (.orP [] none) cfg = .ok false) ∧
    (∀ cfg, Predicate.eval (.notP (.orP [] none) none) cfg = .ok true) :=
  ⟨fun _ => rfl, rfl, rfl, fun _ => rfl, fun _ => rfl⟩

/-- C10: every `SpecPredicate` evaluates to false (without raising)
against an absent context (`if config is None: return False`), and a
rule all of whose skip and fail predicates are `SpecPredicate`s reports
enabled when no context is present. -/
theorem C10_absent_context :
    (∀ sp : SpecPredicate, sp.call none = .ok false) ∧
    (∀ c : compound,
      (∀ p ∈ c.skips ++ c.fails, ∃ sp, p = Predicate.specP sp) →
      c.enabled_for_config none = .ok true) := by
  constructor
  · intro sp; rfl
  · intro c h
    simp [compound.enabled_for_config, findMatch_specs_none _ h]

theorem C10_absent_context_witness :
    (compound.mk [Predicate.specP ⟨"mysql", some .lt, some [5], none⟩]
        [Predicate.specP ⟨"pg", none, none, none⟩] ∅).enabled_for_config
      none = .ok true :=
  C10_absent_context.2 _ (by
    intro p hp
    simp only [List.mem_append, List.mem_singleton] at hp
    rcases hp with h | h <;> exact ⟨_, h⟩)
